import Mathlib

/-!
# ascii-pic: verification of the brightness-to-ASCII mapping pipeline

Shallow embedding of the repository's core modules:
  * `src/utils.js`      — `validateOptions` (option merging and range checks),
  * `src/charsets.js`   — the charset registry and `getCharset`,
  * `src/converter.js`  — the per-pixel brightness-to-glyph mapper, row assembly,
                          `convertAndSave` result construction, `previewAscii`.

JavaScript numbers are modelled over an arbitrary linear ordered field with a
floor function (instantiated at `ℚ` for concrete evaluation); `Math.pow` is an
external library call and is modelled as an explicit function parameter `jpow`
of the mapper.  Fallible JS code (throw/try-catch) is modelled with `Except`.
-/

namespace AsciiPic

/-- A JavaScript runtime value, as far as the option validator can observe it:
a number, a string, a boolean, `null`, or any other object.  `validateOptions`
in `src/utils.js` distinguishes exactly these via `typeof` checks. -/
inductive JVal where
  | num (q : ℚ)
  | str (s : String)
  | bool (b : Bool)
  | jsNull
  | jsObj
deriving DecidableEq, Repr

/-- JavaScript truthiness of a `JVal`, as used by `if (opts.invert)` in
`src/converter.js` (0, "", false, null are falsy; objects are truthy). -/
def JVal.truthy : JVal → Bool
  | .num q => decide (q ≠ 0)
  | .str s => decide (s ≠ "")
  | .bool b => b
  | .jsNull => false
  | .jsObj => true

/-- The options object passed by a caller: each field may be absent or hold an
arbitrary JS value (`src/utils.js` `validateOptions` parameter). -/
structure RawOptions where
  width : Option JVal
  charset : Option JVal
  contrast : Option JVal
  aspectRatio : Option JVal
  invert : Option JVal
deriving DecidableEq, Repr

/-- The result of `validateOptions`: the merged object, with the three fields
that passed the `typeof === "number"` checks exposed as numbers.  `charset` and
`invert` are never inspected by the validator and stay arbitrary JS values. -/
structure ValidOptions where
  width : ℚ
  contrast : ℚ
  aspectRatio : ℚ
  charset : JVal
  invert : JVal
deriving DecidableEq, Repr

/-- `{...defaults, ...options}.width` in `validateOptions` (default `80`). -/
def mergedWidth (o : RawOptions) : JVal := o.width.getD (.num 80)

/-- `{...defaults, ...options}.charset` (default `"detailed"`). -/
def mergedCharset (o : RawOptions) : JVal := o.charset.getD (.str "detailed")

/-- `{...defaults, ...options}.contrast` (default `1.2`). -/
def mergedContrast (o : RawOptions) : JVal := o.contrast.getD (.num (6/5))

/-- `{...defaults, ...options}.aspectRatio` (default `0.5`). -/
def mergedAspectRatio (o : RawOptions) : JVal := o.aspectRatio.getD (.num (1/2))

/-- `{...defaults, ...options}.invert` (default `false`). -/
def mergedInvert (o : RawOptions) : JVal := o.invert.getD (.bool false)

/-- `typeof v === "number" && lo <= v && v <= hi`: the pass condition of one
range check in `validateOptions` (the source throws on its negation
`typeof v !== "number" || v < lo || v > hi`). -/
def checkNum (v : JVal) (lo hi : ℚ) : Bool :=
  match v with
  | .num q => decide (lo ≤ q) && decide (q ≤ hi)
  | _ => false

/-- The numeric payload of a `JVal` known to be a number. -/
def numValue : JVal → ℚ
  | .num q => q
  | _ => 0

/-- `validateOptions` from `src/utils.js`: merge the supplied fields over the
defaults, then check `width ∈ [10,500]`, `contrast ∈ [0.1,5.0]`,
`aspectRatio ∈ [0.1,2.0]` in that order, throwing on the first failure.
The `charset` and `invert` fields are not inspected. -/
def validateOptions (o : RawOptions) : Except String ValidOptions :=
  if checkNum (mergedWidth o) 10 500 then
    if checkNum (mergedContrast o) (1/10) 5 then
      if checkNum (mergedAspectRatio o) (1/10) 2 then
        .ok { width := numValue (mergedWidth o)
              contrast := numValue (mergedContrast o)
              aspectRatio := numValue (mergedAspectRatio o)
              charset := mergedCharset o
              invert := mergedInvert o }
      else .error "Aspect ratio must be a number between 0.1 and 2.0"
    else .error "Contrast must be a number between 0.1 and 5.0"
  else .error "Width must be a number between 10 and 500"

/-- The charset registry of `src/charsets.js`, in registration order.  Every
glyph of every palette is a single UTF-16 code unit, so JS string indexing and
`.length` agree with `List Char` indexing and length. -/
def CHARSETS : List (String × String) :=
  [("detailed", "@%#*+=-:. "),
   ("blocks", "█▉▊▋▌▍▎▏ "),
   ("classic", "@#S%?*+;:,."),
   ("simple", "██▓▒░ "),
   ("minimal", "█▓░ "),
   ("numbers", "9876543210 "),
   ("binary", "█ "),
   ("retro", "▓▒░ ")]

/-- `CHARSETS[name]` as a lookup. -/
def lookupCharset (name : String) : Option String :=
  (CHARSETS.find? (fun p => p.1 == name)).map Prod.snd

/-- `getCharset` from `src/charsets.js`: throws `Unknown charset` when the
name is not registered. -/
def getCharset (name : String) : Except String String :=
  match lookupCharset name with
  | some cs => .ok cs
  | none => .error ("Unknown charset: " ++ name)

/-- `isValidCharset` from `src/charsets.js`. -/
def isValidCharset (name : String) : Bool := (lookupCharset name).isSome

/-- `getCharset` applied to an arbitrary JS value, as `convertToAscii` does
with the unvalidated `opts.charset` field.  A non-string key is coerced by JS
property access to a string ("42", "null", "true", "[object Object]"), none of
which is a registry key, so every non-string lookup throws `Unknown charset`. -/
def getCharsetJ (v : JVal) : Except String String :=
  match v with
  | .str s => getCharset s
  | _ => .error "Unknown charset: non-string key"

/-- `Math.max(0, Math.min(1, b))`: the clamp of `convertToAscii`. -/
def clamp01 {α : Type} [LinearOrderedField α] (b : α) : α := max 0 (min 1 b)

/-- The tail of the per-pixel mapping in `convertToAscii` (`src/converter.js`),
starting from the clamped brightness: optional inversion, then
`charIndex = Math.floor(b * (charset.length - 1))` and selection of
`charset[charset.length - 1 - charIndex]`.  A JS out-of-range string index
yields `undefined`; that dead branch (provably unreachable for registered
charsets) is rendered as `'?'`. -/
def glyphOfClamped {α : Type} [LinearOrderedField α] [FloorRing α]
    (charset : List Char) (invert : Bool) (b : α) : Char :=
  let b3 : α := if invert then 1 - b else b
  let charIndex : ℤ := ⌊b3 * ((charset.length : α) - 1)⌋
  let pos : ℤ := (charset.length : ℤ) - 1 - charIndex
  if 0 ≤ pos then charset.getD pos.toNat '?' else '?'

/-- The full per-pixel mapping of `convertToAscii`:
`brightness = data[i] / 255`, then `Math.pow(brightness, 1 / contrast)`
(the external `Math.pow` is the parameter `jpow`), then clamp, then the
inversion/glyph-selection tail. -/
def pixelChar {α : Type} [LinearOrderedField α] [FloorRing α]
    (jpow : α → α → α) (charset : List Char) (contrast : α) (invert : Bool)
    (v : ℕ) : Char :=
  glyphOfClamped charset invert (clamp01 (jpow ((v : α) / 255) (1 / contrast)))

/-- One output row of `convertToAscii`: the inner `x` loop over
`data[y * width + x]`.  A JS out-of-range buffer read is a dead branch for a
well-formed grid and is rendered as pixel value `0`. -/
def rowData {α : Type} [LinearOrderedField α] [FloorRing α]
    (jpow : α → α → α) (data : List ℕ) (width : ℕ) (charset : List Char)
    (contrast : α) (invert : Bool) (y : ℕ) : List Char :=
  (List.range width).map fun x =>
    pixelChar jpow charset contrast invert (data.getD (y * width + x) 0)

/-- The character data assembled by the `y` loop of `convertToAscii`: each row
followed by a `'\n'`. -/
def asciiData {α : Type} [LinearOrderedField α] [FloorRing α]
    (jpow : α → α → α) (data : List ℕ) (width height : ℕ) (charset : List Char)
    (contrast : α) (invert : Bool) : List Char :=
  ((List.range height).map fun y =>
    rowData jpow data width charset contrast invert y ++ ['\n']).flatten

/-- The ASCII-art string returned by the pixel-mapping stage of
`convertToAscii`. -/
def asciiFromGrid {α : Type} [LinearOrderedField α] [FloorRing α]
    (jpow : α → α → α) (data : List ℕ) (width height : ℕ) (charset : List Char)
    (contrast : α) (invert : Bool) : String :=
  ⟨asciiData jpow data width height charset contrast invert⟩

/-- The mapping stage as `convertToAscii` actually invokes it on validated
options: contrast is read from `opts.contrast` and the unvalidated
`opts.invert` is interpreted by JS truthiness (`if (opts.invert)`). -/
def asciiFromGridOpts {α : Type} [LinearOrderedField α] [FloorRing α]
    (jpow : α → α → α) (data : List ℕ) (width height : ℕ) (charset : List Char)
    (contrast : α) (opts : ValidOptions) : String :=
  asciiFromGrid jpow data width height charset contrast opts.invert.truthy

/-- `targetHeight` of `convertToAscii`:
`Math.floor((imgHeight / imgWidth) * targetWidth * opts.aspectRatio)`. -/
def targetHeight (imgWidth imgHeight : ℕ) (width aspectRatio : ℚ) : ℤ :=
  ⌊(imgHeight : ℚ) / (imgWidth : ℚ) * width * aspectRatio⌋

/-- JS `s.split("\n")`. -/
def jsSplit (s : String) : List String := (s.data.splitOn '\n').map (⟨·⟩)

/-- JS `lines.join("\n")`. -/
def jsJoinNl (l : List String) : String := ⟨['\n'].intercalate (l.map String.data)⟩

/-- The truncation marker appended by `previewAscii` in `src/converter.js`. -/
def truncationMark : String := "\n... (truncated)"

/-- `previewAscii` from `src/converter.js`, applied to the full conversion
output: `lines.slice(0, previewLines).join("\n")` plus the marker when
`lines.length > previewLines`. -/
def previewAscii (fullAscii : String) (previewLines : ℕ) : String :=
  let lines := jsSplit fullAscii
  jsJoinNl (lines.take previewLines) ++
    (if previewLines < lines.length then truncationMark else "")

/-- The result object built by `convertAndSave`.  Fields absent from one of
the two JS object literals are `none`. -/
structure ConvResult where
  success : Bool
  inputFile : String
  outputFile : String
  fileSize : Option ℕ
  processingTime : ℕ
  lines : Option ℕ
  characters : Option ℕ
  error : Option String
deriving DecidableEq, Repr

/-- The failure record of `convertAndSave`'s catch block. -/
def failResult (inputDesc outputPath : String) (e : String) (startTime endTime : ℕ) :
    ConvResult :=
  { success := false
    inputFile := inputDesc
    outputFile := outputPath
    fileSize := none
    processingTime := endTime - startTime
    lines := none
    characters := none
    error := some e }

/-- `convertAndSave` from `src/converter.js`.  Its three awaited steps —
`convertToAscii` (which may fail on invalid options, unknown charset, or any
decode error), `saveToFile` (write failure), and `fs.stat` — are passed in as
`Except` outcomes; `Date.now()` readings are the two timestamps.  The single
try/catch turns the first failing step into a `success := false` record. -/
def convertAndSave (inputDesc outputPath : String)
    (convOutcome : Except String String) (saveOutcome : Except String Unit)
    (statSize : Except String ℕ) (startTime endTime : ℕ) : ConvResult :=
  match convOutcome with
  | .error e => failResult inputDesc outputPath e startTime endTime
  | .ok asciiArt =>
    match saveOutcome with
    | .error e => failResult inputDesc outputPath e startTime endTime
    | .ok _ =>
      match statSize with
      | .error e => failResult inputDesc outputPath e startTime endTime
      | .ok size =>
        { success := true
          inputFile := inputDesc
          outputFile := outputPath
          fileSize := some size
          processingTime := endTime - startTime
          lines := some ((jsSplit asciiArt).length - 1)
          characters := some asciiArt.length
          error := none }

/-- The glyph index as the specification words it: normalize `b = v/255`,
apply the power curve `b ^ (1/contrast)` (the external power function is the
parameter `jpow`), clamp to `[0,1]`, then replace `b'` by `1 - b'` when
`invert` is set — in that order — and take `idx = ⌊b' * (N-1)⌋`. -/
def specIdx {α : Type} [LinearOrderedField α] [FloorRing α] (jpow : α → α → α)
    (contrast : α) (invert : Bool) (n : ℕ) (v : ℕ) : ℕ :=
  let b : α := (v : α) / 255
  let bc : α := jpow b (1 / contrast)
  let bcl : α := max 0 (min 1 bc)
  let bi : α := if invert then 1 - bcl else bcl
  (⌊bi * ((n : α) - 1)⌋).toNat

/-- Modelled from the spec: the decode/resize adapter is an external
collaborator (§4.3), so the spec's end-to-end scenario — a 100×100 solid-white
image with a 90×90 black inset at offset (5,5), resampled to 20×10 — is
idealized here.  An output pixel at column `x`, row `y` covers the source
window of columns `[5x, 5x+5)` and rows `[10y, 10y+10)`; the window is
entirely white exactly in columns 0 and 19 (intensity 255), entirely black
exactly for rows 1–8 and columns 1–18 (intensity 0), and mixed in the rest of
the top and bottom rows, which get the midpoint 128 (their glyphs are
resampler-dependent and no theorem asserts anything about them). -/
def testPixel (y x : ℕ) : ℕ :=
  if x = 0 ∨ x = 19 then 255 else if y = 0 ∨ y = 9 then 128 else 0

/-- Modelled from the spec: the idealized 20×10 PixelGrid of the end-to-end
scenario, in row-major order (see `testPixel`). -/
def testGrid : List ℕ := (List.range 200).map fun i => testPixel (i / 20) (i % 20)

/-- Modelled from the spec: the external `Math.pow`-based contrast curve,
pinned to its exact values at the bases 0 and 1 (`0^e = 0`, `1^e = 1` for
`e > 0`), which are the only bases whose glyphs the scenario theorems assert;
on other bases any value in `[0,1]` is representative and the identity is
used. -/
def scenarioPow (b _e : ℚ) : ℚ := if b ≤ 0 then 0 else if 1 ≤ b then 1 else b

/-- The mapping stage applied to the idealized scenario grid with the options
of the spec's end-to-end test: `width = 20`, charset `simple`, and the
defaults `contrast = 1.2`, `invert = false`, at the computed target height
`⌊(100/100) · 20 · 0.5⌋ = 10`. -/
def scenarioOut : String :=
  asciiFromGrid scenarioPow testGrid 20 10 "██▓▒░ ".data (6/5) false

theorem clamp01_nonneg {α : Type} [LinearOrderedField α] (b : α) :
    0 ≤ clamp01 b := le_max_left 0 _

theorem clamp01_le_one {α : Type} [LinearOrderedField α] (b : α) :
    clamp01 b ≤ 1 := max_le zero_le_one (min_le_left 1 b)

theorem floorIdx_bounds {α : Type} [LinearOrderedField α] [FloorRing α]
    {b : α} (hb0 : 0 ≤ b) (hb1 : b ≤ 1) {n : ℕ} (hn : 2 ≤ n) :
    0 ≤ ⌊b * ((n : α) - 1)⌋ ∧ ⌊b * ((n : α) - 1)⌋ ≤ (n : ℤ) - 1 := by
  have h2 : (2 : α) ≤ (n : α) := by exact_mod_cast hn
  have hn1 : (0 : α) ≤ (n : α) - 1 := by linarith
  refine ⟨Int.floor_nonneg.mpr (mul_nonneg hb0 hn1), ?_⟩
  have hle : b * ((n : α) - 1) ≤ (n : α) - 1 := by nlinarith
  have hcast : ((n : α) - 1) = (((n : ℤ) - 1 : ℤ) : α) := by push_cast; ring
  calc ⌊b * ((n : α) - 1)⌋ ≤ ⌊(n : α) - 1⌋ := Int.floor_le_floor hle
    _ = (n : ℤ) - 1 := by rw [hcast, Int.floor_intCast]

/-- For a clamped brightness and a charset of length at least 2, the glyph
selection genuinely indexes the charset at position `N - 1 - ⌊b' * (N-1)⌋`. -/
theorem glyphOfClamped_eq_get {α : Type} [LinearOrderedField α] [FloorRing α]
    {charset : List Char} (hn : 2 ≤ charset.length) (invert : Bool)
    {b : α} (hb0 : 0 ≤ b) (hb1 : b ≤ 1) :
    ∃ h : charset.length - 1 -
        (⌊(if invert then 1 - b else b) * ((charset.length : α) - 1)⌋).toNat <
        charset.length,
      glyphOfClamped charset invert b
        = charset.get ⟨charset.length - 1 -
            (⌊(if invert then 1 - b else b) * ((charset.length : α) - 1)⌋).toNat, h⟩ := by
  have hb3 : 0 ≤ (if invert then 1 - b else b) ∧ (if invert then 1 - b else b) ≤ 1 := by
    cases invert <;> constructor <;> simp <;> linarith
  obtain ⟨hci0, hci1⟩ := floorIdx_bounds hb3.1 hb3.2 hn
  set ci : ℤ := ⌊(if invert then 1 - b else b) * ((charset.length : α) - 1)⌋ with hci
  have hpos : (0 : ℤ) ≤ (charset.length : ℤ) - 1 - ci := by omega
  have htn : ((charset.length : ℤ) - 1 - ci).toNat = charset.length - 1 - ci.toNat := by
    omega
  have hlt : charset.length - 1 - ci.toNat < charset.length := by omega
  refine ⟨hlt, ?_⟩
  show (if 0 ≤ (charset.length : ℤ) - 1 - ci then
      charset.getD ((charset.length : ℤ) - 1 - ci).toNat '?' else '?') = _
  rw [if_pos hpos, htn, List.getD_eq_getElem charset '?' hlt]
  rfl

/-- `pixelChar` always lands inside the charset. -/
theorem pixelChar_mem {α : Type} [LinearOrderedField α] [FloorRing α]
    (jpow : α → α → α) {charset : List Char} (hn : 2 ≤ charset.length)
    (contrast : α) (invert : Bool) (v : ℕ) :
    pixelChar jpow charset contrast invert v ∈ charset := by
  obtain ⟨h, heq⟩ := glyphOfClamped_eq_get (α := α) hn invert
    (clamp01_nonneg (jpow ((v : α) / 255) (1 / contrast)))
    (clamp01_le_one (jpow ((v : α) / 255) (1 / contrast)))
  rw [pixelChar, heq]
  exact charset.get_mem _ h

/-- C1: for every pixel intensity `v ∈ [0,255]` and validated options
(contrast in `[0.1,5.0]`, charset of length `N ≥ 2`), the mapper emits the
glyph at charset position `N - 1 - idx` where `idx = ⌊b' * (N-1)⌋` and `b'`
is the normalized brightness after the power curve, the clamp to `[0,1]`,
and then (in that order) the optional inversion `b' ← 1 - b'`. -/
theorem glyph_selection_formula {α : Type} [LinearOrderedField α] [FloorRing α]
    (jpow : α → α → α) (charset : List Char) (contrast : α) (invert : Bool)
    (v : ℕ) (hn : 2 ≤ charset.length) (_hc1 : 1/10 ≤ contrast)
    (_hc2 : contrast ≤ 5) (_hv : v ≤ 255) :
    ∃ h : charset.length - 1 - specIdx jpow contrast invert charset.length v <
        charset.length,
      pixelChar jpow charset contrast invert v
        = charset.get ⟨charset.length - 1 -
            specIdx jpow contrast invert charset.length v, h⟩ := by
  obtain ⟨h, heq⟩ := glyphOfClamped_eq_get (α := α) hn invert
    (clamp01_nonneg (jpow ((v : α) / 255) (1 / contrast)))
    (clamp01_le_one (jpow ((v : α) / 255) (1 / contrast)))
  exact ⟨h, heq⟩

/-- Witness for C1: concrete evaluation at `v = 255` with the `binary`
charset, contrast `1.2`, no inversion, over `ℚ`. -/
theorem glyph_selection_formula_witness :
    (2 ≤ ("█ ".data).length ∧ (1/10 : ℚ) ≤ 6/5 ∧ (6/5 : ℚ) ≤ 5 ∧ 255 ≤ 255) ∧
    ∃ h : ("█ ".data).length - 1 -
        specIdx (fun b _ => b : ℚ → ℚ → ℚ) (6/5) false ("█ ".data).length 255 <
        ("█ ".data).length,
      pixelChar (fun b _ => b : ℚ → ℚ → ℚ) "█ ".data (6/5) false 255
        = ("█ ".data).get ⟨("█ ".data).length - 1 -
            specIdx (fun b _ => b : ℚ → ℚ → ℚ) (6/5) false ("█ ".data).length 255, h⟩ :=
  ⟨⟨by decide, by norm_num, by norm_num, le_refl 255⟩,
    glyph_selection_formula (fun b _ => b) "█ ".data (6/5) false 255
      (by decide) (by norm_num) (by norm_num) (le_refl 255)⟩

/-- C4: given a well-formed PixelGrid (values in `[0,255]`, length
`width * height`) and validated options (contrast in `[0.1,5.0]`, registered
charset hence length `≥ 2`), the per-pixel stage is total: every computed
charset index `N - 1 - ⌊b' * (N-1)⌋` lies in `[0, N-1]` (so the selected glyph
is a genuine member of the charset), every pixel index `y * width + x` read
by the loops lies within the buffer, and the divisions `1 / contrast` and
`v / 255` have nonzero divisors. -/
theorem mapper_stage_total {α : Type} [LinearOrderedField α] [FloorRing α]
    (jpow : α → α → α) (charset : List Char) (contrast : α) (invert : Bool)
    (data : List ℕ) (width height : ℕ)
    (hdata : data.length = width * height) (_hvals : ∀ v ∈ data, v ≤ 255)
    (hn : 2 ≤ charset.length) (hc1 : 1/10 ≤ contrast) (_hc2 : contrast ≤ 5) :
    (∀ y x, y < height → x < width → y * width + x < data.length) ∧
    (∀ v : ℕ,
      charset.length - 1 - specIdx jpow contrast invert charset.length v <
        charset.length ∧
      pixelChar jpow charset contrast invert v ∈ charset) ∧
    contrast ≠ 0 ∧ (255 : α) ≠ 0 := by
  refine ⟨?_, ?_, ?_, by norm_num⟩
  · intro y x hy hx
    calc y * width + x < y * width + width := by omega
      _ = (y + 1) * width := by ring
      _ ≤ height * width := Nat.mul_le_mul_right width hy
      _ = width * height := Nat.mul_comm height width
      _ = data.length := hdata.symm
  · intro v
    obtain ⟨h, _⟩ := glyphOfClamped_eq_get (α := α) hn invert
      (clamp01_nonneg (jpow ((v : α) / 255) (1 / contrast)))
      (clamp01_le_one (jpow ((v : α) / 255) (1 / contrast)))
    exact ⟨h, pixelChar_mem jpow hn contrast invert v⟩
  · have : (0 : α) < contrast := lt_of_lt_of_le (by norm_num) hc1
    exact ne_of_gt this

/-- Witness for C4: a concrete 2×2 grid with the `simple` charset over `ℚ`. -/
theorem mapper_stage_total_witness :
    ([0, 255, 17, 200].length = 2 * 2 ∧ (∀ v ∈ [0, 255, 17, 200], v ≤ 255) ∧
      2 ≤ ("██▓▒░ ".data).length ∧ (1/10 : ℚ) ≤ 6/5 ∧ (6/5 : ℚ) ≤ 5) ∧
    ((∀ y x, y < 2 → x < 2 → y * 2 + x < [0, 255, 17, 200].length) ∧
     (∀ v : ℕ,
       ("██▓▒░ ".data).length - 1 -
           specIdx (fun b _ => b : ℚ → ℚ → ℚ) (6/5) true ("██▓▒░ ".data).length v <
         ("██▓▒░ ".data).length ∧
       pixelChar (fun b _ => b : ℚ → ℚ → ℚ) "██▓▒░ ".data (6/5) true v ∈ "██▓▒░ ".data) ∧
     (6/5 : ℚ) ≠ 0 ∧ (255 : ℚ) ≠ 0) :=
  ⟨⟨by decide, by decide, by decide, by norm_num, by norm_num⟩,
    mapper_stage_total (fun b _ => b) "██▓▒░ ".data (6/5) true [0, 255, 17, 200] 2 2
      (by decide) (by decide) (by decide) (by norm_num) (by norm_num)⟩

/-- C9: at any pixel, the glyph chosen with `invert = true` — whose
post-contrast clamped brightness is `b' = clamp01 (pow (v/255) (1/contrast))` —
is exactly the glyph the non-inverted selection stage chooses for the
brightness `1 - b'`. -/
theorem inversion_law {α : Type} [LinearOrderedField α] [FloorRing α]
    (jpow : α → α → α) (charset : List Char) (contrast : α) (v : ℕ) :
    pixelChar jpow charset contrast true v
      = glyphOfClamped charset false
          (1 - clamp01 (jpow ((v : α) / 255) (1 / contrast))) := rfl

theorem flatten_rows_eq_intercalate (L : List (List Char)) :
    (L.map (fun r => r ++ ['\n'])).flatten = ['\n'].intercalate (L ++ [[]]) := by
  induction L with
  | nil => simp [List.intercalate]
  | cons a L ih =>
    cases L with
    | nil => simp [List.intercalate, List.intersperse]
    | cons b t =>
      rw [List.map_cons, List.flatten_cons, ih]
      show _ = ['\n'].intercalate (a :: b :: (t ++ [[]]))
      simp only [List.intercalate, List.intersperse_cons_cons, List.flatten_cons]
      simp [List.append_assoc]

theorem getCharset_mem {name cs : String} (h : getCharset name = .ok cs) :
    cs ∈ CHARSETS.map Prod.snd := by
  cases hf : CHARSETS.find? (fun p => p.1 == name) with
  | none => simp [getCharset, lookupCharset, hf] at h
  | some p =>
    have hp : p ∈ CHARSETS := List.mem_of_find?_eq_some hf
    have hpc : p.2 = cs := by simpa [getCharset, lookupCharset, hf] using h
    exact hpc ▸ List.mem_map_of_mem Prod.snd hp

/-- Every registered charset has at least two glyphs and contains no line
break. -/
theorem charset_facts {name cs : String} (h : getCharset name = .ok cs) :
    2 ≤ cs.data.length ∧ '\n' ∉ cs.data := by
  have hmem := getCharset_mem h
  fin_cases hmem <;> exact ⟨by decide, by decide⟩

theorem rowData_no_newline {α : Type} [LinearOrderedField α] [FloorRing α]
    (jpow : α → α → α) (data : List ℕ) (width : ℕ) {charset : List Char}
    (contrast : α) (invert : Bool) (hn : 2 ≤ charset.length)
    (hnl : '\n' ∉ charset) (y : ℕ) :
    '\n' ∉ rowData jpow data width charset contrast invert y := by
  intro hmem
  rw [rowData] at hmem
  obtain ⟨x, _, hx⟩ := List.mem_map.mp hmem
  exact hnl (hx ▸ pixelChar_mem jpow hn contrast invert _)

/-- The split of the mapper's output on line breaks: the `height` assembled
rows followed by the empty remainder of the trailing line break. -/
theorem jsSplit_asciiFromGrid {α : Type} [LinearOrderedField α] [FloorRing α]
    (jpow : α → α → α) (data : List ℕ) (width height : ℕ)
    (contrast : α) (invert : Bool) {name cs : String}
    (hcs : getCharset name = .ok cs) :
    jsSplit (asciiFromGrid jpow data width height cs.data contrast invert)
      = ((List.range height).map
          (fun y => (⟨rowData jpow data width cs.data contrast invert y⟩ : String)))
        ++ [""] := by
  obtain ⟨hn, hnl⟩ := charset_facts hcs
  have hsplit :
      (asciiData jpow data width height cs.data contrast invert).splitOn '\n'
        = ((List.range height).map
            (rowData jpow data width cs.data contrast invert)) ++ [[]] := by
    have hmm : (List.range height).map
        (fun y => rowData jpow data width cs.data contrast invert y ++ ['\n'])
        = ((List.range height).map
            (rowData jpow data width cs.data contrast invert)).map
            (fun r => r ++ ['\n']) := by
      rw [List.map_map]
      rfl
    rw [asciiData, hmm, flatten_rows_eq_intercalate]
    refine List.splitOn_intercalate _ '\n' ?_ (by simp)
    intro l hl
    rcases List.mem_append.mp hl with hl | hl
    · obtain ⟨y, _, rfl⟩ := List.mem_map.mp hl
      exact rowData_no_newline jpow data width contrast invert hn hnl y
    · simp at hl
      simp [hl]
  show ((asciiFromGrid jpow data width height cs.data contrast
      invert).data.splitOn '\n').map _ = _
  rw [show (asciiFromGrid jpow data width height cs.data contrast
      invert).data = asciiData jpow data width height cs.data contrast invert from rfl]
  rw [hsplit]
  simp

/-- Joining the split rows back with line breaks reproduces the output. -/
theorem jsJoinNl_rows {α : Type} [LinearOrderedField α] [FloorRing α]
    (jpow : α → α → α) (data : List ℕ) (width height : ℕ)
    (charset : List Char) (contrast : α) (invert : Bool) :
    jsJoinNl (((List.range height).map
        (fun y => (⟨rowData jpow data width charset contrast invert y⟩ : String)))
      ++ [""])
      = asciiFromGrid jpow data width height charset contrast invert := by
  show (⟨['\n'].intercalate _⟩ : String) = (⟨_⟩ : String)
  congr 1
  rw [List.map_append, List.map_map]
  have hid : (String.data ∘ fun y =>
      (⟨rowData jpow data width charset contrast invert y⟩ : String))
      = rowData jpow data width charset contrast invert := rfl
  rw [hid]
  have hmm : (List.range height).map
      (fun y => rowData jpow data width charset contrast invert y ++ ['\n'])
      = ((List.range height).map
          (rowData jpow data width charset contrast invert)).map
          (fun r => r ++ ['\n']) := by
    rw [List.map_map]
    rfl
  rw [asciiData, hmm, flatten_rows_eq_intercalate]
  rfl

/-- C3: for every rectangular single-channel grid and validated options, the
mapper's output splits on line breaks into exactly `height` non-empty lines of
exactly `width` glyphs each, followed by the empty remainder produced by the
trailing line break after the last row. -/
theorem output_line_structure {α : Type} [LinearOrderedField α] [FloorRing α]
    (jpow : α → α → α) (data : List ℕ) (width height : ℕ)
    (contrast : α) (invert : Bool) (name cs : String)
    (hcs : getCharset name = .ok cs) (hw : 0 < width)
    (_hdata : data.length = width * height) (_hvals : ∀ v ∈ data, v ≤ 255) :
    ∃ R : List String,
      jsSplit (asciiFromGrid jpow data width height cs.data contrast invert)
          = R ++ [""] ∧
      R.length = height ∧ ∀ r ∈ R, r.length = width ∧ r ≠ "" := by
  refine ⟨(List.range height).map
    (fun y => (⟨rowData jpow data width cs.data contrast invert y⟩ : String)),
    jsSplit_asciiFromGrid jpow data width height contrast invert hcs, by simp, ?_⟩
  · intro r hr
    obtain ⟨y, _, rfl⟩ := List.mem_map.mp hr
    constructor
    · show (rowData jpow data width cs.data contrast invert y).length = width
      simp [rowData]
    · intro hemp
      have : rowData jpow data width cs.data contrast invert y = [] :=
        congrArg String.data hemp
      have hlen : (rowData jpow data width cs.data contrast invert y).length = width := by
        simp [rowData]
      rw [this] at hlen
      simp at hlen
      omega

/-- Witness for C3: a concrete 2×2 grid with the `simple` charset over `ℚ`. -/
theorem output_line_structure_witness :
    (getCharset "simple" = .ok "██▓▒░ " ∧ (0 : ℕ) < 2 ∧
      [0, 255, 17, 200].length = 2 * 2 ∧ ∀ v ∈ [0, 255, 17, 200], v ≤ 255) ∧
    ∃ R : List String,
      jsSplit (asciiFromGrid (fun b _ => b : ℚ → ℚ → ℚ) [0, 255, 17, 200] 2 2
          "██▓▒░ ".data (6/5) false) = R ++ [""] ∧
      R.length = 2 ∧ ∀ r ∈ R, r.length = 2 ∧ r ≠ "" :=
  ⟨⟨by rfl, by decide, by decide, by decide⟩,
    output_line_structure (fun b _ => b) [0, 255, 17, 200] 2 2 (6/5) false
      "simple" "██▓▒░ " (by rfl) (by decide) (by decide) (by decide)⟩

theorem checkNum_num {v : JVal} {lo hi : ℚ} (h : checkNum v lo hi = true) :
    JVal.num (numValue v) = v := by
  cases v <;> simp_all [checkNum, numValue]

/-- C5: `validateOptions {}` returns exactly the documented defaults; supplied
fields are merged over the defaults; and each of the six out-of-range inputs
is rejected with the corresponding range error, never clamped. -/
theorem validator_defaults_merge_ranges :
    validateOptions ⟨none, none, none, none, none⟩
        = .ok ⟨80, 6/5, 1/2, .str "detailed", .bool false⟩ ∧
    (∀ o v, validateOptions o = .ok v →
      JVal.num v.width = mergedWidth o ∧ JVal.num v.contrast = mergedContrast o ∧
      JVal.num v.aspectRatio = mergedAspectRatio o ∧
      v.charset = mergedCharset o ∧ v.invert = mergedInvert o) ∧
    validateOptions ⟨some (.num 5), none, none, none, none⟩
        = .error "Width must be a number between 10 and 500" ∧
    validateOptions ⟨some (.num 600), none, none, none, none⟩
        = .error "Width must be a number between 10 and 500" ∧
    validateOptions ⟨none, none, some (.num (1/20)), none, none⟩
        = .error "Contrast must be a number between 0.1 and 5.0" ∧
    validateOptions ⟨none, none, some (.num 6), none, none⟩
        = .error "Contrast must be a number between 0.1 and 5.0" ∧
    validateOptions ⟨none, none, none, some (.num (1/20)), none⟩
        = .error "Aspect ratio must be a number between 0.1 and 2.0" ∧
    validateOptions ⟨none, none, none, some (.num 3), none⟩
        = .error "Aspect ratio must be a number between 0.1 and 2.0" := by
  refine ⟨?_, ?_, ?_, ?_, ?_, ?_, ?_, ?_⟩
  any_goals
    norm_num [validateOptions, checkNum, mergedWidth, mergedContrast,
      mergedAspectRatio, mergedCharset, mergedInvert, numValue]
    done
  intro o v h
  unfold validateOptions at h
  split_ifs at h with h1 h2 h3
  · simp only [Except.ok.injEq] at h
    subst h
    exact ⟨checkNum_num h1, checkNum_num h2, checkNum_num h3, rfl, rfl⟩

/-- Witness for C5's merge component at a concrete input. -/
theorem validator_merge_witness :
    validateOptions ⟨some (.num 100), some (.str "blocks"), none, none, none⟩
        = .ok ⟨100, 6/5, 1/2, .str "blocks", .bool false⟩ ∧
    (JVal.num (100 : ℚ)
        = mergedWidth ⟨some (.num 100), some (.str "blocks"), none, none, none⟩ ∧
     JVal.num ((6/5 : ℚ))
        = mergedContrast ⟨some (.num 100), some (.str "blocks"), none, none, none⟩ ∧
     JVal.num ((1/2 : ℚ))
        = mergedAspectRatio ⟨some (.num 100), some (.str "blocks"), none, none, none⟩ ∧
     JVal.str "blocks"
        = mergedCharset ⟨some (.num 100), some (.str "blocks"), none, none, none⟩ ∧
     JVal.bool false
        = mergedInvert ⟨some (.num 100), some (.str "blocks"), none, none, none⟩) :=
  ⟨by norm_num [validateOptions, checkNum, mergedWidth, mergedContrast,
      mergedAspectRatio, mergedCharset, mergedInvert, numValue],
    validator_defaults_merge_ranges.2.1
      ⟨some (.num 100), some (.str "blocks"), none, none, none⟩
      ⟨100, 6/5, 1/2, .str "blocks", .bool false⟩
      (by norm_num [validateOptions, checkNum, mergedWidth, mergedContrast,
        mergedAspectRatio, mergedCharset, mergedInvert, numValue])⟩

/-- C6 counterexample: a number-valued `charset` field passes validation — the
validator performs no type check on it at all, contradicting the claim that a
type-incorrect `charsetName` fails with `InvalidOptionError`. -/
theorem charset_type_not_checked_cex :
    validateOptions ⟨none, some (.num 42), none, none, none⟩
      = .ok ⟨80, 6/5, 1/2, .num 42, .bool false⟩ := by
  norm_num [validateOptions, checkNum, mergedWidth, mergedContrast,
    mergedAspectRatio, mergedCharset, mergedInvert, numValue]

/-- C6 amended: the validator never inspects `charset`; any non-string value
passes validation unchanged (when the numeric fields are in range) and is
rejected only at the charset lookup step inside the conversion, where a
non-string key coerces to a string that is not registered. -/
theorem charset_type_deferred_to_lookup {j : JVal} (hj : ∀ s, j ≠ .str s) :
    validateOptions ⟨none, some j, none, none, none⟩
        = .ok ⟨80, 6/5, 1/2, j, .bool false⟩ ∧
    getCharsetJ j = .error "Unknown charset: non-string key" := by
  refine ⟨by norm_num [validateOptions, checkNum, mergedWidth, mergedContrast,
    mergedAspectRatio, mergedCharset, mergedInvert, numValue], ?_⟩
  cases j
  case str s => exact absurd rfl (hj s)
  all_goals rfl

/-- Witness for C6's amended theorem at `charset := 42`. -/
theorem charset_type_deferred_witness :
    (∀ s, JVal.num 42 ≠ .str s) ∧
    (validateOptions ⟨none, some (.num 42), none, none, none⟩
        = .ok ⟨80, 6/5, 1/2, .num 42, .bool false⟩ ∧
     getCharsetJ (.num 42) = .error "Unknown charset: non-string key") :=
  ⟨fun _ h => JVal.noConfusion h,
    charset_type_deferred_to_lookup (fun _ h => JVal.noConfusion h)⟩

/-- C10: the validator never inspects `invert` — validation outcome is
unchanged by any `invert` value of any type, which is passed through verbatim;
the string `"false"` is truthy; and the mapper interprets the passed-through
value by JS truthiness, so `invert: "false"` silently yields inverted
output. -/
theorem invert_never_inspected :
    (∀ (w chs c a : Option JVal) (j : JVal),
      validateOptions ⟨w, chs, c, a, some j⟩
        = (validateOptions ⟨w, chs, c, a, none⟩).map
            (fun v => { v with invert := j })) ∧
    JVal.truthy (.str "false") = true ∧
    (∀ (jpow : ℚ → ℚ → ℚ) (data : List ℕ) (wd ht : ℕ) (cset : List Char)
        (c : ℚ) (chv : JVal),
      asciiFromGridOpts jpow data wd ht cset c ⟨80, c, 1/2, chv, .str "false"⟩
        = asciiFromGrid jpow data wd ht cset c true) := by
  refine ⟨?_, by decide, fun _ _ _ _ _ _ _ => rfl⟩
  intro w chs c a j
  rw [validateOptions, validateOptions]
  rw [show mergedWidth ⟨w, chs, c, a, some j⟩ = mergedWidth ⟨w, chs, c, a, none⟩
      from rfl,
    show mergedContrast ⟨w, chs, c, a, some j⟩ = mergedContrast ⟨w, chs, c, a, none⟩
      from rfl,
    show mergedAspectRatio ⟨w, chs, c, a, some j⟩
        = mergedAspectRatio ⟨w, chs, c, a, none⟩ from rfl,
    show mergedCharset ⟨w, chs, c, a, some j⟩ = mergedCharset ⟨w, chs, c, a, none⟩
      from rfl]
  split_ifs <;> rfl

/-- C7: `convertAndSave` never raises: it returns `success := true` exactly
when conversion, write, and stat all succeed (with size, line count, and
character count populated from the output), and on the first failing step it
returns `success := false` carrying that step's error message; elapsed time is
reported in both cases. -/
theorem convertAndSave_reports (inp outp : String)
    (conv : Except String String) (sv : Except String Unit)
    (st : Except String ℕ) (t0 t1 : ℕ) :
    ((convertAndSave inp outp conv sv st t0 t1).success = true ↔
      (∃ a, conv = .ok a) ∧ (∃ u, sv = .ok u) ∧ (∃ n, st = .ok n)) ∧
    ((convertAndSave inp outp conv sv st t0 t1).success = false →
      ∃ e, (convertAndSave inp outp conv sv st t0 t1).error = some e ∧
        (conv = .error e ∨ sv = .error e ∨ st = .error e)) ∧
    ((convertAndSave inp outp conv sv st t0 t1).success = true →
      ∃ a n, conv = .ok a ∧ st = .ok n ∧
        (convertAndSave inp outp conv sv st t0 t1).fileSize = some n ∧
        (convertAndSave inp outp conv sv st t0 t1).lines
          = some ((jsSplit a).length - 1) ∧
        (convertAndSave inp outp conv sv st t0 t1).characters = some a.length ∧
        (convertAndSave inp outp conv sv st t0 t1).error = none) ∧
    (convertAndSave inp outp conv sv st t0 t1).processingTime = t1 - t0 := by
  cases conv <;> cases sv <;> cases st <;>
    simp [convertAndSave, failResult]

/-- Witness for C7 at a failing conversion step. -/
theorem convertAndSave_reports_witness :
    (convertAndSave "in.png" "out.txt" (.error "boom") (.ok ()) (.ok 3) 2 7).success
      = false ∧
    ∃ e, (convertAndSave "in.png" "out.txt" (.error "boom") (.ok ()) (.ok 3) 2 7).error
        = some e ∧
      ((.error "boom" : Except String String) = .error e ∨
        ((.ok ()) : Except String Unit) = .error e ∨
        ((.ok 3) : Except String ℕ) = .error e) :=
  ⟨by decide,
    (convertAndSave_reports "in.png" "out.txt" (.error "boom") (.ok ()) (.ok 3) 2 7).2.1
      (by decide)⟩

theorem glyph_at_one {cs : List Char} (hn : 2 ≤ cs.length) :
    glyphOfClamped cs false (1 : ℚ) = cs.getD 0 '?' := by
  have h5 : ⌊(1 : ℚ) * ((cs.length : ℚ) - 1)⌋ = (cs.length : ℤ) - 1 := by
    rw [one_mul, show ((cs.length : ℚ) - 1) = (((cs.length : ℤ) - 1 : ℤ) : ℚ) by
      push_cast
      ring]
    exact Int.floor_intCast _
  have hn2 : (2 : ℤ) ≤ (cs.length : ℤ) := by exact_mod_cast hn
  simp only [glyphOfClamped, Bool.false_eq_true, if_false, h5]
  rw [if_pos (by omega)]
  congr 1
  omega

theorem glyph_at_zero {cs : List Char} (hn : 2 ≤ cs.length) :
    glyphOfClamped cs false (0 : ℚ) = cs.getD (cs.length - 1) '?' := by
  have h0 : ⌊(0 : ℚ) * ((cs.length : ℚ) - 1)⌋ = 0 := by
    rw [zero_mul, Int.floor_zero]
  have hn2 : (2 : ℤ) ≤ (cs.length : ℤ) := by exact_mod_cast hn
  simp only [glyphOfClamped, Bool.false_eq_true, if_false, h0]
  rw [if_pos (by omega)]
  congr 1
  omega

/-- A pure-white scenario pixel renders the darkest glyph of `simple`. -/
theorem scenario_white :
    pixelChar scenarioPow "██▓▒░ ".data (6/5) false 255 = '█' := by
  have h1 : clamp01 (scenarioPow (((255 : ℕ) : ℚ) / 255) (1 / (6/5))) = 1 := by
    norm_num [scenarioPow, clamp01]
  rw [pixelChar, h1, glyph_at_one (by decide)]
  decide

/-- A pure-black scenario pixel renders the lightest glyph of `simple`. -/
theorem scenario_black :
    pixelChar scenarioPow "██▓▒░ ".data (6/5) false 0 = ' ' := by
  have h0 : clamp01 (scenarioPow (((0 : ℕ) : ℚ) / 255) (1 / (6/5))) = 0 := by
    norm_num [scenarioPow, clamp01]
  rw [pixelChar, h0, glyph_at_zero (by decide)]
  decide

theorem testGrid_getD {y x : ℕ} (hy : y < 10) (hx : x < 20) :
    testGrid.getD (y * 20 + x) 0 = testPixel y x := by
  have hlen : y * 20 + x < testGrid.length := by
    simp only [testGrid, List.length_map, List.length_range]
    omega
  rw [List.getD_eq_getElem _ _ hlen]
  simp only [testGrid, List.getElem_map, List.getElem_range]
  have h1 : (y * 20 + x) / 20 = y := by omega
  have h2 : (y * 20 + x) % 20 = x := by omega
  rw [h1, h2]

/-- The character at row `y`, column `x` of the scenario output is the mapped
glyph of the idealized grid's pixel there. -/
theorem scenario_line_char {y x : ℕ} (hy : y < 10) (hx : x < 20) :
    ((jsSplit scenarioOut).getD y "").data.getD x '?'
      = pixelChar scenarioPow "██▓▒░ ".data (6/5) false (testPixel y x) := by
  have hcs : getCharset "simple" = .ok "██▓▒░ " := rfl
  have hsp := jsSplit_asciiFromGrid scenarioPow testGrid 20 10 (6/5) false hcs
  rw [show scenarioOut
      = asciiFromGrid scenarioPow testGrid 20 10 "██▓▒░ ".data (6/5) false from rfl,
    hsp]
  have hy' : y < ((List.range 10).map (fun r =>
      (⟨rowData scenarioPow testGrid 20 "██▓▒░ ".data (6/5) false r⟩ : String))).length := by
    simpa using hy
  rw [List.getD_append _ _ _ _ hy', List.getD_eq_getElem _ _ hy']
  simp only [List.getElem_map, List.getElem_range]
  show (rowData scenarioPow testGrid 20 "██▓▒░ ".data (6/5) false y).getD x '?' = _
  have hx' : x < (rowData scenarioPow testGrid 20 "██▓▒░ ".data (6/5) false y).length := by
    simpa [rowData] using hx
  rw [List.getD_eq_getElem _ _ hx']
  simp only [rowData, List.getElem_map, List.getElem_range]
  rw [testGrid_getD hy hx]

/-- C2 counterexample: converted with `width = 20` and the documented defaults
(`aspectRatio = 0.5`), the 100×100 scenario image yields
`⌊(100/100)·20·0.5⌋ = 10` output rows — not the 20 rows the claim asserts —
and a border (pure-white source) pixel renders `'█'`, the darkest glyph of
`simple`, not the lightest glyph (the trailing space): the code maps
brightness 1 to charset position 0. -/
theorem end_to_end_cex :
    (jsSplit scenarioOut).length - 1 = 10 ∧
    ¬ ((jsSplit scenarioOut).length - 1 = 20) ∧
    ((jsSplit scenarioOut).getD 0 "").data.getD 0 '?' = '█' ∧ '█' ≠ ' ' := by
  have hcs : getCharset "simple" = .ok "██▓▒░ " := rfl
  have hlen : (jsSplit scenarioOut).length = 11 := by
    rw [show scenarioOut
        = asciiFromGrid scenarioPow testGrid 20 10 "██▓▒░ ".data (6/5) false from rfl,
      jsSplit_asciiFromGrid scenarioPow testGrid 20 10 (6/5) false hcs]
    simp
  refine ⟨by omega, by omega, ?_, by decide⟩
  rw [scenario_line_char (by norm_num) (by norm_num),
    show testPixel 0 0 = 255 from rfl]
  exact scenario_white

/-- C2 amended: the scenario conversion produces 10 lines (the computed target
height `⌊(100/100)·20·0.5⌋`) of 20 characters each; output pixels whose source
window is pure white (columns 0 and 19) render the darkest glyph `'█'` of
`simple`, and output pixels whose window is pure black (rows 1–8, columns
1–18) render its lightest glyph, the trailing space.  (The remaining cells of
the top and bottom rows mix white and black source pixels and their glyphs
depend on the external resampler.) -/
theorem end_to_end_amended :
    targetHeight 100 100 20 (1/2) = 10 ∧
    (jsSplit scenarioOut).length = 10 + 1 ∧
    (∀ r ∈ (jsSplit scenarioOut).take 10, r.length = 20) ∧
    (jsSplit scenarioOut).getD 10 "?" = "" ∧
    (∀ y x : ℕ, y < 10 → (x = 0 ∨ x = 19) →
      ((jsSplit scenarioOut).getD y "").data.getD x '?' = '█') ∧
    (∀ y x : ℕ, 1 ≤ y → y ≤ 8 → 1 ≤ x → x ≤ 18 →
      ((jsSplit scenarioOut).getD y "").data.getD x '?' = ' ') := by
  have hcs : getCharset "simple" = .ok "██▓▒░ " := rfl
  have hsp := jsSplit_asciiFromGrid scenarioPow testGrid 20 10 (6/5) false hcs
  have hout : scenarioOut
      = asciiFromGrid scenarioPow testGrid 20 10 "██▓▒░ ".data (6/5) false := rfl
  refine ⟨?_, ?_, ?_, ?_, ?_, ?_⟩
  · rw [targetHeight,
      show ((100 : ℕ) : ℚ) / ((100 : ℕ) : ℚ) * 20 * (1/2) = ((10 : ℤ) : ℚ) by
        push_cast
        norm_num]
    exact Int.floor_intCast _
  · rw [hout, hsp]
    simp
  · intro r hr
    rw [hout, hsp] at hr
    rw [List.take_append_of_le_length (by simp)] at hr
    rw [List.take_of_length_le (by simp)] at hr
    obtain ⟨j, _, rfl⟩ := List.mem_map.mp hr
    show (rowData scenarioPow testGrid 20 "██▓▒░ ".data (6/5) false j).length = 20
    simp [rowData]
  · rw [hout, hsp, List.getD_append_right _ _ _ _ (by simp)]
    simp
  · intro y x hy hx0
    rw [scenario_line_char hy (by omega)]
    simp only [testPixel, if_pos hx0]
    exact scenario_white
  · intro y x hy1 hy8 hx1 hx18
    rw [scenario_line_char (by omega) (by omega)]
    simp only [testPixel]
    rw [if_neg (by omega), if_neg (by omega)]
    exact scenario_black

/-- Witness for C2's amended theorem: the top-left pixel (a pure-white border
column) renders the darkest glyph. -/
theorem end_to_end_amended_witness :
    ((0 : ℕ) < 10 ∧ ((0 : ℕ) = 0 ∨ (0 : ℕ) = 19)) ∧
    ((jsSplit scenarioOut).getD 0 "").data.getD 0 '?' = '█' :=
  ⟨⟨by norm_num, Or.inl rfl⟩,
    end_to_end_amended.2.2.2.2.1 0 0 (by norm_num) (Or.inl rfl)⟩

/-- The conversion of a 1×1 all-black grid: one row, one glyph. -/
theorem one_pixel_out :
    asciiFromGrid scenarioPow [0] 1 1 "██▓▒░ ".data (6/5) false = " \n" := by
  have hb : pixelChar scenarioPow "██▓▒░ ".data (6/5) false 0 = ' ' :=
    scenario_black
  have hd : asciiData scenarioPow [0] 1 1 "██▓▒░ ".data (6/5) false
      = [' ', '\n'] := by
    show ((List.range 1).map fun y =>
        ((List.range 1).map fun x => pixelChar scenarioPow "██▓▒░ ".data (6/5) false
          ([0].getD (y * 1 + x) 0)) ++ ['\n']).flatten = [' ', '\n']
    rw [show List.range 1 = [0] from rfl]
    simp only [List.map_cons, List.map_nil, List.flatten_cons, List.flatten_nil,
      List.append_nil]
    rw [show [0].getD (0 * 1 + 0) 0 = 0 from rfl, hb]
    rfl
  show (⟨asciiData scenarioPow [0] 1 1 "██▓▒░ ".data (6/5) false⟩ : String) = " \n"
  rw [hd]

/-- C8 counterexample: a conversion that produces exactly one row, previewed
with `maxLines = 1`, still gets the truncation marker appended — the split on
line breaks counts the empty remainder of the trailing newline, so at exactly
`maxLines` rows the marker appears although no row was dropped, contradicting
the claim that the marker appears only if rows were actually dropped. -/
theorem preview_marker_cex :
    (jsSplit (asciiFromGrid scenarioPow [0] 1 1 "██▓▒░ ".data (6/5) false)).length - 1
        = 1 ∧
    previewAscii (asciiFromGrid scenarioPow [0] 1 1 "██▓▒░ ".data (6/5) false) 1
        = " \n... (truncated)" := by
  rw [one_pixel_out]
  exact ⟨by decide, by decide⟩

/-- C8 amended: `previewAscii` keeps at most `maxLines` rows of the conversion
output, but the truncation marker is appended if and only if the conversion
produced at least `maxLines` rows (the split includes the empty remainder of
the trailing newline, making it one element longer than the row count): with
fewer than `maxLines` rows the preview is the whole output unchanged, and with
`maxLines ≤ height` the preview is the first `maxLines` rows joined by line
breaks followed by the marker — appended even when `height = maxLines` and no
row was dropped. -/
theorem preview_truncation {α : Type} [LinearOrderedField α] [FloorRing α]
    (jpow : α → α → α) (data : List ℕ) (width height : ℕ)
    (contrast : α) (invert : Bool) (name cs : String)
    (hcs : getCharset name = .ok cs) (m : ℕ) :
    (height < m →
      previewAscii (asciiFromGrid jpow data width height cs.data contrast invert) m
        = asciiFromGrid jpow data width height cs.data contrast invert) ∧
    (m ≤ height →
      previewAscii (asciiFromGrid jpow data width height cs.data contrast invert) m
        = jsJoinNl ((((List.range height).map (fun y =>
              (⟨rowData jpow data width cs.data contrast invert y⟩ : String)))).take m)
          ++ truncationMark) := by
  have hsp := jsSplit_asciiFromGrid jpow data width height contrast invert hcs
  have hlen : (jsSplit (asciiFromGrid jpow data width height cs.data contrast
      invert)).length = height + 1 := by
    rw [hsp]
    simp
  constructor
  · intro hm
    rw [previewAscii, hlen, if_neg (by omega)]
    rw [List.take_of_length_le (by omega)]
    rw [hsp, jsJoinNl_rows]
    show (asciiFromGrid jpow data width height cs.data contrast invert) ++ "" = _
    cases hout : asciiFromGrid jpow data width height cs.data contrast invert
    show String.mk _ = String.mk _
    simp [String.instAppend, String.append]
  · intro hm
    rw [previewAscii, hlen, if_pos (by omega)]
    rw [hsp, List.take_append_of_le_length (by simpa using hm)]

/-- Witness for C8's amended theorem: a 1×2 grid previewed with
`maxLines = 1`. -/
theorem preview_truncation_witness :
    (getCharset "simple" = .ok "██▓▒░ " ∧ (1 : ℕ) ≤ 2) ∧
    ((1 : ℕ) ≤ 2 →
      previewAscii (asciiFromGrid (fun b _ => b : ℚ → ℚ → ℚ) [0, 255] 1 2
          "██▓▒░ ".data (6/5) false) 1
        = jsJoinNl ((((List.range 2).map (fun y =>
              (⟨rowData (fun b _ => b : ℚ → ℚ → ℚ) [0, 255] 1 "██▓▒░ ".data
                (6/5) false y⟩ : String)))).take 1)
          ++ truncationMark) :=
  ⟨⟨rfl, by norm_num⟩,
    (preview_truncation (fun b _ => b) [0, 255] 1 2 (6/5) false "simple"
      "██▓▒░ " rfl 1).2⟩

end AsciiPic
